import Mathlib

/-!
Shallow embedding of `synth_fit/make_model.py` (class `ModelGrid`).

Numeric values are modelled as exact rationals (`ℚ`).  Python exceptions
(IndexError, KeyError, ValueError, NameError) are modelled by `Option`:
a function returns `none` exactly when the source would raise.  Unit
bookkeeping (`astropy.units`) is not modelled: all values are taken to be
already expressed in the model's units, which is what `__init__` converts
the data to once (lines 155-159) before any arithmetic happens.

Line numbers in comments refer to `src/synth_fit/make_model.py`.
-/

namespace SynthFit

/-- Elementwise sum of two equal-length numpy arrays (`a + b`). -/
def addL (a b : List ℚ) : List ℚ := List.zipWith (· + ·) a b

/-- Elementwise difference of two numpy arrays (`a - b`). -/
def subL (a b : List ℚ) : List ℚ := List.zipWith (· - ·) a b

/-- A numpy array multiplied by a scalar on the right (`a * c`). -/
def smulR (a : List ℚ) (c : ℚ) : List ℚ := a.map (fun x => x * c)

/-- Elementwise combination of three equal-length numpy arrays. -/
def zipWith3 (f : ℚ → ℚ → ℚ → ℚ) : List ℚ → List ℚ → List ℚ → List ℚ
  | a :: as, b :: bs, c :: cs => f a b c :: zipWith3 f as bs cs
  | _, _, _ => []

/-- `np.unique`: sorted distinct values of an array. -/
def npUnique (l : List ℚ) : List ℚ := (l.insertionSort (· ≤ ·)).dedup

/-- Dictionary lookup with parameter-tuple keys (`dict` keyed by `tuple(cpar)`).
The association lists built below never bind the same key to two different
values, so first-match lookup agrees with Python's dict. -/
def alookup (k : List ℚ) : List (List ℚ × List ℚ) → Option (List ℚ)
  | [] => none
  | (k', v) :: rest => if k' = k then some v else alookup k rest

/-- The observed spectrum handed to `ModelGrid.__init__`
(already converted to model units, see module comment). -/
structure Spectrum where
  wavelength : List ℚ
  flux : List ℚ
  unc : List ℚ
deriving DecidableEq

/-- The `model_dict` argument: one shared wavelength axis, one flux array per
model, and one coordinate column per physical parameter, keyed by name. -/
structure ModelDict where
  wavelength : List ℚ
  flux : List (List ℚ)
  pvals : List (String × List ℚ)
deriving DecidableEq

/-- The state a successfully constructed `ModelGrid` object carries.
Fields mirror exactly the attributes `__init__` stores (lines 112-184);
in particular there is no field for the constructor's `resolution`
argument, because the source never stores it. -/
structure ModelGrid where
  wave : List ℚ
  flux : List ℚ
  unc : List ℚ
  modelWavelength : List ℚ
  modelFlux : List (List ℚ)
  params : List String
  plimsVals : List (List ℚ)
  wavelength_bins : List ℚ
  smooth : Bool
  interp : Bool
  is_grid_complete : Bool
  snap : Bool
deriving DecidableEq

namespace ModelGrid

/-- `self.ndim = len(self.params)` (line 131). -/
def ndim (g : ModelGrid) : Nat := g.params.length

end ModelGrid

/-- One row of the `unique_combinations` matrix of `check_grid_coverage`
(lines 500-507).  Column `i` of row `r` is
`unique_params[i][(r / 2**(ndim-i-1)) % len(unique_params[i])]`
(Python 2 integer division). -/
def coverageRow (uniqueParams : List (List ℚ)) (ndim r : Nat) : List ℚ :=
  (List.range ndim).map (fun i =>
    let ui := uniqueParams.getD i []
    ui.getD ((r / 2 ^ (ndim - i - 1)) % ui.length) 0)

/-- The check loop of `check_grid_coverage` (lines 509-520).  `r` is the row
index into `unique_combinations`; the source reads `self.params[i]` with the
ROW index `i` (line 514), so a row index at or beyond `ndim` raises
IndexError (`none`), and every row is matched against the coordinate column
of the parameter numbered by the ROW index.  `p_loc` is seeded with
`np.arange(len(unique_combinations))` (line 511). -/
def coverageLoop (params : List String) (plimsVals : List (List ℚ))
    (uniqueParams : List (List ℚ)) (ncomb : Nat) : List Nat → Option Bool
  | [] => some true
  | r :: rest =>
    if r < params.length then
      let vals := plimsVals.getD r []
      let up := coverageRow uniqueParams params.length r
      let ploc := (List.range ncomb).filter (fun m =>
        (List.range params.length).all (fun j =>
          decide (vals.get? m = some (up.getD j 0))))
      if ploc.isEmpty then some false
      else coverageLoop params plimsVals uniqueParams ncomb rest
    else none

/-- `ModelGrid.check_grid_coverage` (lines 489-522): intended to decide
whether every combination of unique per-parameter values has a model. -/
def checkGridCoverage (params : List String) (plimsVals : List (List ℚ)) :
    Option Bool :=
  let uniqueParams := plimsVals.map npUnique
  let ncomb := (uniqueParams.map List.length).prod
  coverageLoop params plimsVals uniqueParams ncomb (List.range ncomb)

/-- `ModelGrid.calc_normalization` (lines 683-722) as a function of the
normalization sub-vector, the wavelength bin edges and the data wavelengths.
With empty bins, `normalization[:] = n_values` broadcasts (a single value or
one value per sample; any other shape is a ValueError).  With non-empty bins,
the loop reads `wavelength_bins[i+1]` (IndexError when the bins array is too
short) and lines 717-720 reuse the loop variable `i`, which is unbound when
`n_values` is empty (NameError) and otherwise stays at the LAST bin index. -/
def calcNormalization (n_values bins wave : List ℚ) : Option (List ℚ) :=
  if bins.length = 0 then
    if n_values.length = 1 then some (wave.map (fun _ => n_values.getD 0 0))
    else if n_values.length = wave.length then some n_values
    else none
  else
    if bins.length < n_values.length + 1 then none
    else if n_values.length = 0 then none
    else some (wave.map (fun w =>
      let afterLoop := (List.range n_values.length).foldl (fun acc i =>
        if bins.getD i 0 < w ∧ w ≤ bins.getD (i + 1) 0 then n_values.getD i 0
        else acc) 0
      let lastVal := n_values.getD (n_values.length - 1) 0
      let v1 := if w ≤ bins.getD 0 0 then lastVal else afterLoop
      if w > bins.getD (bins.length - 1) 0 then lastVal else v1))

/-- `ModelGrid.__init__` (lines 70-184).  Returns the stored object state, or
`none` where the source raises: a fit parameter missing from the model
dictionary (the source only logs at line 140, but `self.plims` then lacks the
key and every later use raises KeyError), `min`/`max` of an empty coordinate
column (lines 143-144), an empty wavelength array (line 162) or an empty model
flux list (line 184).  The `resolution` argument is accepted and never
stored — no attribute of the constructed object depends on it. -/
def mkModelGrid (spectrum : Spectrum) (model : ModelDict) (params : List String)
    (smooth : Bool) (resolution : Option ℚ) (snap : Bool)
    (wavelength_bins : List ℚ) : Option ModelGrid := do
  let plimsVals ← params.mapM (fun p => model.pvals.lookup p)
  let _ ← plimsVals.mapM List.min?
  let _ ← plimsVals.mapM List.max?
  let w0 ← model.wavelength.head?
  let d0 ← spectrum.wavelength.head?
  -- lines 161-173: resample needed unless same length and same first sample
  let interp := ! (decide (model.wavelength.length = spectrum.wavelength.length)
      && decide (|w0 - d0| < 1 / 10 ^ 10))
  let isComplete ← checkGridCoverage params plimsVals
  -- lines 175-181: an incomplete grid is meant to force snap mode on …
  let _snapForced := if isComplete then snap else true
  -- … but line 182 then unconditionally overwrites it with the caller's flag
  let snapFinal := snap
  let _ ← model.flux.head?
  some { wave := spectrum.wavelength, flux := spectrum.flux,
         unc := spectrum.unc, modelWavelength := model.wavelength,
         modelFlux := model.flux, params := params, plimsVals := plimsVals,
         wavelength_bins := wavelength_bins, smooth := smooth,
         interp := interp, is_grid_complete := isComplete, snap := snapFinal }

/-- `np.interp` at one point, given the `(xp, fp)` pairs: clamped piecewise
linear interpolation (assumes `xp` increasing, as numpy does). -/
def npInterp1 (x : ℚ) : List (ℚ × ℚ) → ℚ
  | [] => 0
  | [(_, fa)] => fa
  | (xa, fa) :: (xb, fb) :: rest =>
    if x ≤ xa then fa
    else if x ≤ xb then fa + (fb - fa) * (x - xa) / (xb - xa)
    else npInterp1 x ((xb, fb) :: rest)

/-- `np.interp(xs, xp, fp)` (lines 446 and 628). -/
def npInterp (xs xp fp : List ℚ) : List ℚ :=
  xs.map (fun x => npInterp1 x (xp.zip fp))

/-- `ModelGrid.normalize_model` with `return_ck=True` (lines 457-486):
the least-squares scale `ck` and the rescaled flux.  `ckNum` and `ckDen`
are the two sums of lines 478-479. -/
def ckNum (g : ModelGrid) (model_flux : List ℚ) : ℚ :=
  (zipWith3 (fun f m u => f * m / u ^ 2) g.flux model_flux g.unc).sum

/-- Denominator sum `sum(model_flux*model_flux/(self.unc**2))` (line 479). -/
def ckDen (g : ModelGrid) (model_flux : List ℚ) : ℚ :=
  (zipWith3 (fun m m' u => m * m' / u ^ 2) model_flux model_flux g.unc).sum

/-- `normalize_model(model_flux, return_ck=True)` (lines 457-484). -/
def normalize_ck (g : ModelGrid) (model_flux : List ℚ) : List ℚ × ℚ :=
  let ck := ckNum g model_flux / ckDen g model_flux
  (smulR model_flux ck, ck)

/-- `normalize_model(model_flux)` (lines 457-486, `return_ck=False`). -/
def normalize_model (g : ModelGrid) (model_flux : List ℚ) : List ℚ :=
  (normalize_ck g model_flux).1

/-- The per-dimension "edge values" of `interp_models` (lines 308-322):
the requested value itself when it is an existing grid value, otherwise the
immediately lower and upper grid values.  `max`/`min` of an empty selection
raises ValueError (`none`), which happens exactly when the requested value
lies outside the column's range. -/
def gridEdges1 (vals : List ℚ) (x : ℚ) : Option (List ℚ) :=
  if x ∈ vals then some [x]
  else do
    let dn ← (vals.filter (fun v => v < x)).max?
    let up ← (vals.filter (fun v => v > x)).min?
    some [dn, up]

/-- The edge values for every dimension (`grid_edges`, lines 300-322). -/
def interpEdges (g : ModelGrid) (p : List ℚ) : Option (List (List ℚ)) :=
  (List.range g.ndim).mapM (fun i => do
    let pi ← p.get? i
    gridEdges1 (g.plimsVals.getD i []) pi)

/-- `single_flags` (lines 308-312): the dimensions whose requested value is an
existing grid value, in increasing order. -/
def interpSingle (g : ModelGrid) (p : List ℚ) : List Nat :=
  (List.range g.ndim).filter (fun i =>
    decide (p.getD i 0 ∈ g.plimsVals.getD i []))

/-- The bit selecting the lower (0) or upper (1) edge of interpolated
dimension `i` in corner row `r` (lines 345-352).  `k` is the number of
interpolated dimensions.  For `num_spectra > 2` the source divides by
`div_by = 2**(k - i - 1)` with the GLOBAL dimension index `i`; when that
exponent is negative, Python 2 yields the float `1/2**(i+1-k)`, and
`(np.arange(num_spectra)/div_by) % 2` is then identically zero. -/
def cornerLoc (numSpectra k i r : Nat) : Nat :=
  if numSpectra = 2 then r % 2
  else if i < k then (r / 2 ^ (k - i - 1)) % 2
  else 0

/-- The `grid_corners` matrix (lines 330-355): one row per corner spectrum,
one column per dimension; pinned columns carry their single edge value,
interpolated columns the edge selected by `cornerLoc`. -/
def gridCorners (ndim : Nat) (edges : List (List ℚ)) (single : List Nat) :
    List (List ℚ) :=
  let k := ndim - single.length
  let numSpectra := 2 ^ k
  (List.range numSpectra).map (fun r =>
    (List.range ndim).map (fun i =>
      let e := edges.getD i []
      if i ∈ single then e.getD 0 0
      else if cornerLoc numSpectra k i r = 0 then e.getD 0 0 else e.getD 1 0))

/-- The corner matrix for a requested parameter vector. -/
def interpCorners (g : ModelGrid) (p : List ℚ) : Option (List (List ℚ)) := do
  let edges ← interpEdges g p
  some (gridCorners g.ndim edges (interpSingle g p))

/-- `find_i` of the corner-spectra loop (lines 363-367): the indices of the
models whose coordinates equal the corner's coordinates in every dimension. -/
def countMatches (plimsVals : List (List ℚ)) (ndim : Nat) (cpar : List ℚ) :
    List Nat :=
  (List.range (plimsVals.getD 0 []).length).filter (fun m =>
    (List.range ndim).all (fun i =>
      decide ((plimsVals.getD i []).get? m = some (cpar.getD i 0))))

/-- The `corner_spectra` loop (lines 359-373).  Outer `none` is a raised
exception (a matched index beyond the flux list); inner `none` is the early
`return` of the -99 sentinel when a corner matches zero or several models
(lines 369-371).  The singleton index axis of `model['flux'][find_i]` — which
line 433 strips again with `[0]` — is dropped here directly. -/
def cornerSpectra (g : ModelGrid) : List (List ℚ) →
    Option (Option (List (List ℚ × List ℚ)))
  | [] => some (some [])
  | cpar :: rest =>
    let fi := countMatches g.plimsVals g.ndim cpar
    if fi.length = 1 then
      match g.modelFlux.get? (fi.headD 0) with
      | none => none
      | some fluxRow =>
        match cornerSpectra g rest with
        | none => none
        | some none => some none
        | some (some s) => some (some ((cpar, fluxRow) :: s))
    else some none

/-- The interpolation weight `coeff` (lines 389-395): linear in the grid
coordinate, except fourth-power for the parameter named `teff`. -/
def interpCoeff (pname : String) (interp1 interp2 pi : ℚ) : ℚ :=
  if pname = "teff" then (pi ^ 4 - interp1 ^ 4) / (interp2 ^ 4 - interp1 ^ 4)
  else (pi - interp1) / (interp2 - interp1)

/-- One pass of the dimension-collapsing loop body (lines 381-432), for
dimension `i`, carrying the current corner rows and corner-spectra map.
The final `else` branch of the source only logs and leaves the state
unchanged. -/
def collapseStep (g : ModelGrid) (p : List ℚ) (toInterp single : List Nat)
    (i : Nat) (corners : List (List ℚ)) (spectra : List (List ℚ × List ℚ)) :
    Option (List (List ℚ) × List (List ℚ × List ℚ)) :=
  if i ∈ toInterp then do
    let c0 ← corners.head?
    let interp1 ← c0.head?
    let cmid ← corners.get? (corners.length / 2)
    let interp2 ← cmid.head?
    let pi ← p.get? i
    let coeff := interpCoeff (g.params.getD i "") interp1 interp2 pi
    let newCorners := (corners.take (corners.length / 2)).map List.tail
    let newSpectra ← newCorners.mapM (fun cpar => do
      let ns1 ← alookup (interp1 :: cpar) spectra
      let ns2 ← alookup (interp2 :: cpar) spectra
      some (cpar, addL ns1 (smulR (subL ns2 ns1) coeff)))
    some (newCorners, newSpectra)
  else if i ∈ single then do
    let c0 ← corners.head?
    let skipVar ← c0.head?
    let newCorners := corners.map List.tail
    let newSpectra ← newCorners.mapM (fun cpar => do
      let ns ← alookup (skipVar :: cpar) spectra
      some (cpar, ns))
    some (newCorners, newSpectra)
  else some (corners, spectra)

/-- The dimension-collapsing loop `for i in range(self.ndim)` (line 381). -/
def collapseLoop (g : ModelGrid) (p : List ℚ) (toInterp single : List Nat) :
    List Nat → List (List ℚ) × List (List ℚ × List ℚ) →
    Option (List (List ℚ) × List (List ℚ × List ℚ))
  | [], st => some st
  | i :: rest, st => do
    let st' ← collapseStep g p toInterp single i st.1 st.2
    collapseLoop g p toInterp single rest st'

/-- `interp_models` up to line 433: gather the hyper-cube corner spectra and
collapse them dimension by dimension to one flux array.  Outer `none` is a
raised exception; inner `none` is the zero-or-multiple-models sentinel path. -/
def interpCollapse (g : ModelGrid) (p : List ℚ) : Option (Option (List ℚ)) := do
  let edges ← interpEdges g p
  let single := interpSingle g p
  let toInterp := (List.range g.ndim).filter (fun i => i ∉ single)
  let corners := gridCorners g.ndim edges single
  match ← cornerSpectra g corners with
  | none => some none
  | some spectra => do
    let st ← collapseLoop g p toInterp single (List.range g.ndim)
      (corners, spectra)
    let modFlux ← alookup [] st.2
    some (some modFlux)

/-- `ModelGrid.interp_models` (lines 279-455).  `smoothFn` stands for the
external smoothing collaborator call `falt2(wl, flux, resolution)` of line
440; the name `resolution` there is free in `make_model.py` (the constructor
argument of the same name is never stored), so the collaborator and whatever
that free name denotes are abstracted together.  The -99 sentinel path
returns without smoothing, resampling or normalization (line 371). -/
def interp_models (g : ModelGrid) (smoothFn : List ℚ → List ℚ → List ℚ)
    (p : List ℚ) : Option (List ℚ) := do
  match ← interpCollapse g p with
  | none => some (List.replicate g.wave.length (-99 : ℚ))
  | some modFlux =>
    let mf1 := if g.smooth then smoothFn g.modelWavelength modFlux else modFlux
    let mf2 := if g.interp then npInterp g.wave g.modelWavelength mf1 else mf1
    some (normalize_model g mf2)

/-- `np.argmin(np.abs(arr-val))` (line 533): first index attaining the
minimal absolute difference; argmin of an empty array raises. -/
def argminAbs (arr : List ℚ) (val : ℚ) : Option Nat :=
  let ds := arr.map (fun a => |a - val|)
  match ds.min? with
  | none => none
  | some m => ds.findIdx? (fun d => decide (d = m))

/-- `ModelGrid.find_nearest` (lines 525-537): indices within `1e-5` of the
value closest to `val`. -/
def find_nearest (arr : List ℚ) (val : ℚ) : Option (List Nat) := do
  let idx ← argminAbs arr val
  let closeVal ← arr.get? idx
  some ((List.range arr.length).filter (fun i =>
    decide (|arr.getD i 0 - closeVal| ≤ 1 / 100000)))

/-- `ModelGrid.find_nearest2` (lines 539-566): index of the parameter tuple
with the least mean absolute difference to `p` (first winner kept, ties skip);
the initial distance is `1e10` and the initial index the `-99` sentinel. -/
def find_nearest2 (paramArrays : List (List ℚ)) (p : List ℚ) : Int :=
  (paramArrays.foldl (fun (st : ℚ × Int × Nat) mp =>
    let check := ((List.zipWith (fun a b => |a - b|) mp p).sum) / (mp.length : ℚ)
    if check = st.1 then (st.1, st.2.1, st.2.2 + 1)
    else if check < st.1 then (check, Int.ofNat st.2.2, st.2.2 + 1)
    else (st.1, st.2.1, st.2.2 + 1)) ((10 : ℚ) ^ 10, (-99 : Int), 0)).2.1

/-- `ModelGrid.retrieve_model` (lines 568-637); `smoothFn` plays the same
role as in `interp_models` (line 621 has the same free `resolution` name).
Zero or multiple surviving indices return the -99 sentinel immediately
(lines 609-617); a single index fetches the flux row (negative sentinel
indices would wrap as numpy fancy indices do). -/
def retrieve_model (g : ModelGrid) (smoothFn : List ℚ → List ℚ → List ℚ)
    (p : List ℚ) : Option (List ℚ) := do
  let nflux := g.modelFlux.length
  let ploc : List Int ←
    if g.is_grid_complete then do
      let sets ← (List.range g.ndim).mapM (fun i => do
        let pi ← p.get? i
        find_nearest (g.plimsVals.getD i []) pi)
      some (sets.foldl (fun acc s =>
          acc.filter (fun m => (s.map Int.ofNat).contains m))
        ((List.range nflux).map Int.ofNat))
    else do
      let numModels := (g.plimsVals.getD 0 []).length
      let paramArrays := (List.range numModels).map (fun j =>
        (List.range g.ndim).map (fun i => (g.plimsVals.getD i []).getD j 0))
      some [find_nearest2 paramArrays p]
  if ploc.length = 1 then do
    let idx ← ploc.head?
    let row ←
      if 0 ≤ idx ∧ idx < nflux then g.modelFlux.get? idx.toNat
      else if -nflux ≤ idx ∧ idx < 0 then g.modelFlux.get? (idx + nflux).toNat
      else none
    let mf1 := if g.smooth then smoothFn g.modelWavelength row else row
    let mf2 := if g.interp then npInterp g.wave g.modelWavelength mf1 else mf1
    some (normalize_model g mf2)
  else some (List.replicate g.wave.length (-99 : ℚ))

/-- The bounds-check loop of `__call__` (lines 231-237); `some true` means
"reject".  The source compares each `model_p[i]` strictly against the
stored `plims` min/max, returning at the first violation. -/
def boundsRejectLoop (g : ModelGrid) (model_p : List ℚ) :
    List Nat → Option Bool
  | [] => some false
  | i :: rest => do
    let vals := g.plimsVals.getD i []
    let mx ← vals.max?
    let mn ← vals.min?
    let pi ← model_p.get? i
    if pi > mx ∨ pi < mn then some true
    else boundsRejectLoop g model_p rest

/-- The bounds check of `__call__` over all fit dimensions. -/
def boundsReject (g : ModelGrid) (model_p : List ℚ) : Option Bool :=
  boundsRejectLoop g model_p (List.range g.ndim)

/-- The outcome of `ModelGrid.__call__`: either the `-np.inf` rejection, or
the data the finite log-posterior of lines 260-276 is computed from (model
flux, per-sample normalization, noise log-parameter) — the remaining
arithmetic is transcendental and carried no further by the claims. -/
inductive CallResult where
  | negInf : CallResult
  | lnprob : List ℚ → List ℚ → ℚ → CallResult
deriving DecidableEq

/-- `ModelGrid.__call__` (lines 187-276) up to the finite-posterior formula:
argument unpacking (lines 214-217), piecewise normalization (line 224), the
noise-scale gate (line 227), the bounds check (lines 231-237), flux retrieval
by snap or interpolation (lines 239-244), and the negative-sum sentinel gate
(line 250). -/
def call (g : ModelGrid) (smoothFn : List ℚ → List ℚ → List ℚ)
    (args : List ℚ) : Option CallResult := do
  let model_p := args.take g.ndim
  let lns ← args.getLast?
  let norm_values := (args.drop g.ndim).dropLast
  let normalization ← calcNormalization norm_values g.wavelength_bins g.wave
  if lns > 1 then some CallResult.negInf
  else do
    let rej ← boundsReject g model_p
    if rej then some CallResult.negInf
    else do
      let mod_flux ← if g.snap then retrieve_model g smoothFn model_p
        else interp_models g smoothFn model_p
      if mod_flux.sum < 0 then some CallResult.negInf
      else some (CallResult.lnprob mod_flux normalization lns)

/-! ### Concrete instances used by the theorems below -/

/-- The default wavelength bin edges `[0.9, 1.4, 1.9, 2.5] um`. -/
def defaultBins : List ℚ := [9/10, 14/10, 19/10, 25/10]

/-- A two-sample observed spectrum. -/
def specC1 : Spectrum := { wavelength := [1, 2], flux := [1, 1], unc := [1, 1] }

/-- A 2-parameter model collection with three models at coordinates
`(1,1)`, `(1,2)`, `(2,1)` — the combination `(2,2)` is missing, so this grid
is genuinely incomplete. -/
def modelC1 : ModelDict :=
  { wavelength := [1, 2], flux := [[1, 1], [2, 2], [3, 3]],
    pvals := [("a", [1, 1, 2]), ("b", [1, 2, 1])] }

/-- A grid on which an interpolation corner lookup is ambiguous: two models
share the coordinate `a = 2`. -/
def gC4 : ModelGrid :=
  { wave := [1], flux := [1], unc := [1], modelWavelength := [1],
    modelFlux := [[5], [6], [7]], params := ["a"], plimsVals := [[1, 2, 2]],
    wavelength_bins := [0, 5], smooth := false, interp := false,
    is_grid_complete := false, snap := false }

/-- A complete 3-parameter grid (4 models) whose first dimension is constant:
a request pinned in dimension 0 and interpolated in dimensions 1 and 2
exercises the corner construction with `k = 2` interpolated dimensions whose
global indices exceed `k - 1`. -/
def gC5 : ModelGrid :=
  { wave := [1], flux := [1], unc := [1], modelWavelength := [1],
    modelFlux := [[1], [2], [3], [4]], params := ["a", "b", "c"],
    plimsVals := [[1, 1, 1, 1], [1, 1, 2, 2], [1, 2, 1, 2]],
    wavelength_bins := [], smooth := false, interp := false,
    is_grid_complete := false, snap := false }

/-- A one-parameter grid with limits `[1, 2]` for the bounds-check claim. -/
def gC8 : ModelGrid :=
  { wave := [1], flux := [1], unc := [1], modelWavelength := [1],
    modelFlux := [[5], [6]], params := ["a"], plimsVals := [[1, 2]],
    wavelength_bins := [0, 5], smooth := false, interp := false,
    is_grid_complete := false, snap := false }

/-- A two-parameter grid on which `(1, 2)` is the exact coordinate of the
model with index 1. -/
def gC9 : ModelGrid :=
  { wave := [1], flux := [2], unc := [1], modelWavelength := [1],
    modelFlux := [[5], [6], [7]], params := ["a", "b"],
    plimsVals := [[1, 1, 2], [1, 2, 1]], wavelength_bins := [],
    smooth := false, interp := false, is_grid_complete := false, snap := false }

/-- A grid with a two-sample spectrum for the normalization round-trip. -/
def gC10 : ModelGrid :=
  { wave := [1, 2], flux := [1, 2], unc := [1, 1], modelWavelength := [1, 2],
    modelFlux := [[5, 5]], params := ["a"], plimsVals := [[1]],
    wavelength_bins := [], smooth := false, interp := false,
    is_grid_complete := false, snap := false }

/-! ### Helper predicates for stating the bounds-check claim -/

/-- Dimension `i` has a requested value and stored limits (the accesses of
lines 231-236 all succeed). -/
def paramDefinedB (g : ModelGrid) (p : List ℚ) (i : Nat) : Bool :=
  (p.get? i).isSome && ((g.plimsVals.getD i []).max?).isSome
    && ((g.plimsVals.getD i []).min?).isSome

/-- The requested value of dimension `i` lies strictly outside the stored
`plims` interval — the rejection condition of line 232. -/
def strictlyOutsideB (g : ModelGrid) (p : List ℚ) (i : Nat) : Bool :=
  match p.get? i, (g.plimsVals.getD i []).max?, (g.plimsVals.getD i []).min? with
  | some pi, some mx, some mn => decide (pi > mx ∨ pi < mn)
  | _, _, _ => false

/-- The requested value of dimension `i` lies inside the closed `plims`
interval (endpoints included). -/
def withinLimitsB (g : ModelGrid) (p : List ℚ) (i : Nat) : Bool :=
  match p.get? i, (g.plimsVals.getD i []).max?, (g.plimsVals.getD i []).min? with
  | some pi, some mx, some mn => decide (mn ≤ pi ∧ pi ≤ mx)
  | _, _, _ => false

/-! ### Helper lemmas -/

/-- Scaling the model flux scales the numerator sum linearly. -/
theorem zipWith3_num_smul (c : ℚ) :
    ∀ (f mfs u : List ℚ),
      (zipWith3 (fun a m x => a * m / x ^ 2) f (smulR mfs c) u).sum =
        c * (zipWith3 (fun a m x => a * m / x ^ 2) f mfs u).sum := by
  intro f mfs
  induction mfs generalizing f with
  | nil => cases f <;> intro u <;> simp [zipWith3, smulR]
  | cons m ms ih =>
    intro u
    cases f with
    | nil => simp [zipWith3, smulR]
    | cons a as =>
      cases u with
      | nil => simp [zipWith3, smulR]
      | cons x xs =>
        have := ih as xs
        simp only [smulR, List.map_cons, zipWith3, List.sum_cons] at this ⊢
        rw [show ((ms.map fun y => y * c) : List ℚ) = smulR ms c from rfl] at *
        rw [this]
        ring

/-- Scaling the model flux scales the denominator sum quadratically. -/
theorem zipWith3_den_smul (c : ℚ) :
    ∀ (mfs u : List ℚ),
      (zipWith3 (fun m m' x => m * m' / x ^ 2) (smulR mfs c) (smulR mfs c) u).sum =
        c ^ 2 * (zipWith3 (fun m m' x => m * m' / x ^ 2) mfs mfs u).sum := by
  intro mfs
  induction mfs with
  | nil => intro u; simp [zipWith3, smulR]
  | cons m ms ih =>
    intro u
    cases u with
    | nil => simp [zipWith3, smulR]
    | cons x xs =>
      have := ih xs
      simp only [smulR, List.map_cons, zipWith3, List.sum_cons] at this ⊢
      rw [show ((ms.map fun y => y * c) : List ℚ) = smulR ms c from rfl] at *
      rw [this]
      ring

/-- `ckNum` after rescaling the model flux. -/
theorem ckNum_smulR (g : ModelGrid) (mf : List ℚ) (c : ℚ) :
    ckNum g (smulR mf c) = c * ckNum g mf :=
  zipWith3_num_smul c g.flux mf g.unc

/-- `ckDen` after rescaling the model flux. -/
theorem ckDen_smulR (g : ModelGrid) (mf : List ℚ) (c : ℚ) :
    ckDen g (smulR mf c) = c ^ 2 * ckDen g mf :=
  zipWith3_den_smul c mf g.unc

/-- Splitting the argument vector of `__call__` (lines 214-217): with a
fit-parameter block of the right length, `take`, `drop` and `getLast`
recover the three blocks of `p ++ norms ++ [lns]`. -/
theorem call_append (g : ModelGrid) (smoothFn : List ℚ → List ℚ → List ℚ)
    (p norms : List ℚ) (lns : ℚ) (hp : p.length = g.ndim) :
    call g smoothFn (p ++ norms ++ [lns]) = (do
      let normalization ← calcNormalization norms g.wavelength_bins g.wave
      if lns > 1 then some CallResult.negInf
      else do
        let rej ← boundsReject g p
        if rej then some CallResult.negInf
        else do
          let mod_flux ← if g.snap then retrieve_model g smoothFn p
            else interp_models g smoothFn p
          if mod_flux.sum < 0 then some CallResult.negInf
          else some (CallResult.lnprob mod_flux normalization lns)) := by
  unfold call
  rw [← hp, List.getLast?_concat, List.append_assoc, List.take_left,
    List.drop_left, List.dropLast_concat]
  rfl

/-- The bounds-check loop accepts when every inspected dimension is within
its closed limits interval. -/
theorem boundsRejectLoop_within (g : ModelGrid) (p : List ℚ) :
    ∀ is : List Nat, (∀ i ∈ is, withinLimitsB g p i = true) →
      boundsRejectLoop g p is = some false := by
  intro is
  induction is with
  | nil => intro _; rfl
  | cons a rest ih =>
    intro h
    have ha := h a (List.mem_cons_self a rest)
    unfold withinLimitsB at ha
    unfold boundsRejectLoop
    cases hmx : (g.plimsVals.getD a []).max? with
    | none => rw [hmx] at ha; simp at ha
    | some mx =>
      cases hmn : (g.plimsVals.getD a []).min? with
      | none => rw [hmx, hmn] at ha; simp at ha
      | some mn =>
        cases hpa : p.get? a with
        | none => rw [hpa, hmx, hmn] at ha; simp at ha
        | some pi =>
          rw [hpa, hmx, hmn] at ha
          simp only [decide_eq_true_eq] at ha
          have hcond : ¬ (pi > mx ∨ pi < mn) := by
            push_neg
            exact ⟨ha.2, ha.1⟩
          simp only [hmx, hmn, hpa]
          show (if pi > mx ∨ pi < mn then some true
            else boundsRejectLoop g p rest) = some false
          rw [if_neg hcond]
          exact ih (fun i hi => h i (List.mem_cons_of_mem a hi))

/-- The bounds-check loop rejects when every inspected dimension is defined
and some inspected dimension is strictly outside its limits. -/
theorem boundsRejectLoop_violation (g : ModelGrid) (p : List ℚ) :
    ∀ is : List Nat, (∀ i ∈ is, paramDefinedB g p i = true) →
      (∃ i ∈ is, strictlyOutsideB g p i = true) →
      boundsRejectLoop g p is = some true := by
  intro is
  induction is with
  | nil => intro _ hex; simp at hex
  | cons a rest ih =>
    intro hdef hex
    have ha := hdef a (List.mem_cons_self a rest)
    unfold paramDefinedB at ha
    simp only [Bool.and_eq_true, Option.isSome_iff_exists] at ha
    obtain ⟨⟨⟨pi, hpa⟩, mx, hmx⟩, mn, hmn⟩ := ha
    unfold boundsRejectLoop
    by_cases hout : pi > mx ∨ pi < mn
    · simp only [hmx, hmn, hpa]
      show (if pi > mx ∨ pi < mn then some true
        else boundsRejectLoop g p rest) = some true
      rw [if_pos hout]
    · simp only [hmx, hmn, hpa]
      show (if pi > mx ∨ pi < mn then some true
        else boundsRejectLoop g p rest) = some true
      rw [if_neg hout]
      apply ih (fun i hi => hdef i (List.mem_cons_of_mem a hi))
      obtain ⟨i, hi, houti⟩ := hex
      rcases List.mem_cons.mp hi with rfl | hi'
      · exfalso
        unfold strictlyOutsideB at houti
        rw [hpa, hmx, hmn] at houti
        simp only [decide_eq_true_eq] at houti
        exact hout houti
      · exact ⟨i, hi', houti⟩

/-- Recovering a list from its positional reads. -/
theorem map_getD_range (l : List ℚ) :
    (List.range l.length).map (fun i => l.getD i 0) = l := by
  apply List.ext_getElem (by simp)
  intro n h1 h2
  simp [List.getElem?_eq_getElem h2]

/-- `mapM` over `Option` when every element succeeds. -/
theorem mapM_eq_map_of_some {α β : Type} (f : α → Option β) (g : α → β) :
    ∀ l : List α, (∀ a ∈ l, f a = some (g a)) → l.mapM f = some (l.map g) := by
  intro l
  induction l with
  | nil => intro _; rfl
  | cons a rest ih =>
    intro h
    rw [List.mapM_cons, h a (List.mem_cons_self a rest),
      ih (fun b hb => h b (List.mem_cons_of_mem a hb))]
    rfl

/-- When the requested vector sits exactly on grid values, every dimension's
edge list is the singleton of the requested value. -/
theorem interpEdges_pinned (g : ModelGrid) (p : List ℚ)
    (hp : p.length = g.ndim)
    (hpin : ∀ i < g.ndim, p.getD i 0 ∈ g.plimsVals.getD i []) :
    interpEdges g p = some ((List.range g.ndim).map (fun i => [p.getD i 0])) := by
  apply mapM_eq_map_of_some
  intro i hi
  have hilt : i < g.ndim := List.mem_range.mp hi
  have hget : p.get? i = some (p.getD i 0) := by
    have hip : i < p.length := hp ▸ hilt
    rw [List.get?_eq_getElem?, List.getElem?_eq_getElem hip,
      List.getD_eq_getElem p 0 hip]
  rw [hget]
  show gridEdges1 (g.plimsVals.getD i []) (p.getD i 0) = some [p.getD i 0]
  unfold gridEdges1
  rw [if_pos (hpin i hilt)]

/-- When the requested vector sits exactly on grid values, every dimension is
a `single_flags` dimension. -/
theorem interpSingle_pinned (g : ModelGrid) (p : List ℚ)
    (hpin : ∀ i < g.ndim, p.getD i 0 ∈ g.plimsVals.getD i []) :
    interpSingle g p = List.range g.ndim := by
  apply List.filter_eq_self.mpr
  intro i hi
  exact decide_eq_true (hpin i (List.mem_range.mp hi))

/-- With every dimension pinned, the corner matrix is the single row `p`. -/
theorem gridCorners_pinned (g : ModelGrid) (p : List ℚ)
    (hp : p.length = g.ndim) :
    gridCorners g.ndim ((List.range g.ndim).map (fun i => [p.getD i 0]))
      (List.range g.ndim) = [p] := by
  unfold gridCorners
  simp only [List.length_range, Nat.sub_self, pow_zero,
    show List.range 1 = [0] from rfl, List.map_cons, List.map_nil]
  congr 1
  have hrow : ∀ i ∈ List.range g.ndim,
      (if i ∈ List.range g.ndim
        then (((List.range g.ndim).map (fun j => [p.getD j 0])).getD i []).getD 0 0
        else if cornerLoc 1 0 i 0 = 0
          then (((List.range g.ndim).map (fun j => [p.getD j 0])).getD i []).getD 0 0
          else (((List.range g.ndim).map (fun j => [p.getD j 0])).getD i []).getD 1 0)
        = p.getD i 0 := by
    intro i hi
    have hilt : i < g.ndim := List.mem_range.mp hi
    have he : ((List.range g.ndim).map (fun j => [p.getD j 0])).getD i []
        = [p.getD i 0] := by
      rw [List.getD_eq_getElem _ [] (by simp [hilt])]
      simp [hilt]
    rw [if_pos hi, he]
    rfl
  rw [List.map_congr_left hrow, ← hp, map_getD_range]

/-- The collapsing loop over pinned-only dimensions peels the leading
coordinate at each step and keeps the single spectrum. -/
theorem collapseLoop_all_single (g : ModelGrid) (p : List ℚ)
    (single : List Nat) (flux : List ℚ) :
    ∀ (is : List Nat) (q : List ℚ), q.length = is.length →
      (∀ i ∈ is, i ∈ single) →
      collapseLoop g p [] single is ([q], [(q, flux)])
        = some ([([] : List ℚ)], [(([] : List ℚ), flux)]) := by
  intro is
  induction is with
  | nil =>
    intro q hq _
    rw [List.length_nil] at hq
    rw [List.length_eq_zero.mp hq]
    rfl
  | cons a rest ih =>
    intro q hq hmem
    cases q with
    | nil => simp at hq
    | cons x xs =>
      have halook : alookup (x :: xs) [(x :: xs, flux)] = some flux := by
        unfold alookup
        rw [if_pos rfl]
      have hstep : collapseStep g p [] single a [x :: xs] [(x :: xs, flux)]
          = some ([xs], [(xs, flux)]) := by
        unfold collapseStep
        rw [if_neg (List.not_mem_nil a),
          if_pos (hmem a (List.mem_cons_self a rest))]
        show (do
          let newSpectra ← List.mapM (fun cpar => do
            let ns ← alookup (x :: cpar) [(x :: xs, flux)]
            some ((cpar, ns) : List ℚ × List ℚ)) [xs]
          some (([xs] : List (List ℚ)), newSpectra))
          = some ([xs], [(xs, flux)])
        simp only [List.mapM_cons, List.mapM_nil, halook]
        rfl
      unfold collapseLoop
      rw [hstep]
      show collapseLoop g p [] single rest ([xs], [(xs, flux)])
        = some ([([] : List ℚ)], [(([] : List ℚ), flux)])
      exact ih xs (by simpa using hq) (fun i hi => hmem i (List.mem_cons_of_mem a hi))

/-- Every model index returned by the corner lookup is an index into the
first parameter's coordinate column. -/
theorem countMatches_lt (pv : List (List ℚ)) (nd : Nat) (c : List ℚ) :
    ∀ m ∈ countMatches pv nd c, m < (pv.getD 0 []).length := by
  intro m hm
  exact List.mem_range.mp (List.mem_filter.mp hm).1

/-- A safe positional read on a list of flux rows. -/
theorem get?_some_of_lt (l : List (List ℚ)) (m : Nat) (h : m < l.length) :
    l.get? m = some (l.getD m []) := by
  rw [List.get?_eq_getElem?, List.getElem?_eq_getElem h,
    List.getD_eq_getElem _ [] h]

/-- The corner-spectra loop returns the -99 sentinel marker as soon as some
corner matches zero or several models (the flux list being at least as long
as the coordinate columns, successful earlier lookups cannot raise). -/
theorem cornerSpectra_fail (g : ModelGrid)
    (hnm : (g.plimsVals.getD 0 []).length ≤ g.modelFlux.length) :
    ∀ rows : List (List ℚ),
      (∃ c ∈ rows, (countMatches g.plimsVals g.ndim c).length ≠ 1) →
      cornerSpectra g rows = some none := by
  intro rows
  induction rows with
  | nil => intro h; simp at h
  | cons c rest ih =>
    intro h
    unfold cornerSpectra
    by_cases hc : (countMatches g.plimsVals g.ndim c).length = 1
    · obtain ⟨m, hms⟩ := List.length_eq_one.mp hc
      have hmlt : m < g.modelFlux.length := by
        apply lt_of_lt_of_le _ hnm
        apply countMatches_lt g.plimsVals g.ndim c
        rw [hms]
        exact List.mem_singleton.mpr rfl
      have hrest : ∃ c' ∈ rest,
          (countMatches g.plimsVals g.ndim c').length ≠ 1 := by
        obtain ⟨c', hc', hne⟩ := h
        rcases List.mem_cons.mp hc' with rfl | hin
        · exact absurd hc hne
        · exact ⟨c', hin, hne⟩
      simp only [hms, List.headD_cons, List.length_cons, List.length_nil,
        get?_some_of_lt g.modelFlux m hmlt, ih hrest]
      simp
    · simp only [if_neg hc]

/-- `interp_models` returns the -99 sentinel array when some corner's lookup
is ambiguous or empty. -/
theorem interp_models_sentinel (g : ModelGrid)
    (smoothFn : List ℚ → List ℚ → List ℚ) (p : List ℚ)
    (hnm : (g.plimsVals.getD 0 []).length ≤ g.modelFlux.length)
    (hedges : (interpEdges g p).isSome)
    (hfail : ∃ c ∈ (interpCorners g p).getD [],
      (countMatches g.plimsVals g.ndim c).length ≠ 1) :
    interp_models g smoothFn p
      = some (List.replicate g.wave.length (-99 : ℚ)) := by
  obtain ⟨edges, hE⟩ := Option.isSome_iff_exists.mp hedges
  have hCor : interpCorners g p
      = some (gridCorners g.ndim edges (interpSingle g p)) := by
    unfold interpCorners
    rw [hE]
    rfl
  have hfail' : ∃ c ∈ gridCorners g.ndim edges (interpSingle g p),
      (countMatches g.plimsVals g.ndim c).length ≠ 1 := by
    rw [hCor] at hfail
    exact hfail
  have hcs := cornerSpectra_fail g hnm _ hfail'
  have hCol : interpCollapse g p = some none := by
    unfold interpCollapse
    rw [hE]
    simp only [Option.pure_def, Option.bind_eq_bind, Option.some_bind, hcs]
  unfold interp_models
  rw [hCol]
  rfl

/-! ### Claim theorems -/

/-- Claim C1: constructing a `ModelGrid` on an incomplete grid is claimed to
force snap mode on even when the caller passed `snap=False`.  On the
incomplete grid `modelC1` (the combination `(2, 2)` of the two parameters has
no model, as the second conjunct certifies) the constructed object
nevertheless has `snap = false`: line 182 unconditionally overwrites the
forced value of line 177 with the caller's flag. -/
theorem C1_incomplete_grid_snap_not_forced :
    (mkModelGrid specC1 modelC1 ["a", "b"] false none false defaultBins).map
      (fun g => (g.snap, g.is_grid_complete)) = some (false, false)
    ∧ ¬ (∀ x ∈ ([1, 2] : List ℚ), ∀ y ∈ ([1, 2] : List ℚ),
        ∃ j ∈ List.range 3,
          ([1, 1, 2] : List ℚ).getD j 0 = x ∧ ([1, 2, 1] : List ℚ).getD j 0 = y) := by
  constructor
  · decide
  · decide

/-- Claim C2: `check_grid_coverage` is claimed to return true iff the
Cartesian product of unique per-parameter values is fully populated.  On a
fully populated 2×2 grid (second conjunct: every combination of `{1,2}` and
`{3,4}` has a model) the routine reports `False`: the check loop of lines
510-514 indexes `self.params` with the combination-row counter `i` instead of
the dimension counter `j`, comparing every combination against the first
parameter's coordinate column. -/
theorem C2_coverage_false_on_fully_populated_grid :
    checkGridCoverage ["a", "b"] [[1, 1, 2, 2], [3, 4, 3, 4]] = some false
    ∧ (∀ x ∈ ([1, 2] : List ℚ), ∀ y ∈ ([3, 4] : List ℚ),
        ∃ j ∈ List.range 4,
          ([1, 1, 2, 2] : List ℚ).getD j 0 = x ∧ ([3, 4, 3, 4] : List ℚ).getD j 0 = y) := by
  constructor
  · decide
  · decide

/-- Claim C3: with bin edges `[0.9, 1.4, 1.9, 2.5]` and values `[1, 2, 3]`,
a wavelength sample at `1.65` gets `2` and a sample at `3.0` gets `3` as
claimed, but the sample at `0.5` (below the first edge) gets the LAST bin's
value `3`, not the first bin's value `1`: lines 717-718 reuse the loop
variable `i`, which is stuck at the last bin index. -/
theorem C3_below_first_edge_gets_last_value :
    calcNormalization [1, 2, 3] defaultBins [1/2, 33/20, 3] = some [3, 2, 3] := by
  with_unfolding_all decide

/-- Claim C5: the corner set for a request pinned in dimension 0 (`a = 1`)
and interpolated in dimensions 1 and 2 should be the four combinations of
lower/upper values, but the rows produced repeat the two lower-`c` corners
and never contain `[1, 1, 2]` (nor `[1, 2, 2]`): for an interpolated
dimension with global index `i ≥ k`, `div_by = 2**(k-i-1)` of line 349 has a
negative exponent and the selector of line 350 is identically zero. -/
theorem C5_corner_set_misses_upper_corners :
    interpCorners gC5 [1, 3/2, 3/2] = some [[1, 1, 1], [1, 2, 1], [1, 1, 1], [1, 2, 1]]
    ∧ [1, 1, 2] ∉ (interpCorners gC5 [1, 3/2, 3/2]).getD []
    ∧ interpSingle gC5 [1, 3/2, 3/2] = [0] := by
  refine ⟨by with_unfolding_all decide, by with_unfolding_all decide, by with_unfolding_all decide⟩

/-- Claim C6: flux retrieval is claimed to smooth using the target resolution
supplied at construction.  But `__init__` discards its `resolution` argument —
the constructed object is identical whatever resolution the caller passes —
so no later evaluation can depend on it; the `resolution` read at lines 440
and 621 is a free name, not the constructor argument. -/
theorem C6_construction_ignores_resolution (s : Spectrum) (m : ModelDict)
    (ps : List String) (sm : Bool) (r1 r2 : Option ℚ) (sn : Bool)
    (b : List ℚ) :
    mkModelGrid s m ps sm r1 sn b = mkModelGrid s m ps sm r2 sn b := rfl

/-- Claim C7, counterexample to the stated numeric value: the `teff` blending
weight for lower 1400, upper 1600, target 1500 is `12209/27120 ≈ 0.45018`,
which differs from the claimed `≈ 0.4639` by more than `0.01` while agreeing
with `0.4502` to within `0.0001`. -/
theorem C7_weight_value_refuted :
    interpCoeff "teff" 1400 1600 1500 = 12209 / 27120
    ∧ ¬ (|interpCoeff "teff" 1400 1600 1500 - 4639/10000| < 1/100)
    ∧ |interpCoeff "teff" 1400 1600 1500 - 4502/10000| < 1/10000 := by
  have h : interpCoeff "teff" 1400 1600 1500 = 12209 / 27120 := by
    unfold interpCoeff
    rw [if_pos rfl]
    norm_num
  refine ⟨h, ?_, ?_⟩
  · rw [h]
    rw [abs_lt]
    norm_num
  · rw [h]
    rw [abs_lt]
    norm_num

/-- Claim C10: `normalize_model` returns `model_flux * ck` with
`ck = Σ(data·model/unc²) / Σ(model²/unc²)`, and re-running the `ck`
computation on the already-scaled array yields exactly 1 in exact arithmetic
(given nonzero denominator sums for both runs; the nonzero-uncertainty and
length hypotheses keep ℚ arithmetic faithful to the numpy expression). -/
theorem C10_normalize_ck_roundtrip (g : ModelGrid) (mf : List ℚ)
    (hu : ∀ x ∈ g.unc, x ≠ 0)
    (hl1 : mf.length = g.flux.length) (hl2 : g.unc.length = g.flux.length)
    (hd1 : ckDen g mf ≠ 0)
    (hd2 : ckDen g (normalize_model g mf) ≠ 0) :
    normalize_model g mf = smulR mf (ckNum g mf / ckDen g mf)
    ∧ (normalize_ck g (normalize_model g mf)).2 = 1 := by
  refine ⟨rfl, ?_⟩
  have hform : normalize_model g mf = smulR mf (ckNum g mf / ckDen g mf) := rfl
  set c : ℚ := ckNum g mf / ckDen g mf with hc
  have hden2 : ckDen g (normalize_model g mf) = c ^ 2 * ckDen g mf := by
    rw [hform, ckDen_smulR]
  have hcne : c ≠ 0 := by
    intro h
    rw [hden2, h] at hd2
    simp at hd2
  have hNne : ckNum g mf ≠ 0 := by
    intro h
    apply hcne
    rw [hc, h, zero_div]
  show ckNum g (normalize_model g mf) / ckDen g (normalize_model g mf) = 1
  rw [hform, ckNum_smulR, ckDen_smulR, hc]
  field_simp
  ring

/-- Witness for C10 at a concrete grid and model flux: data flux `[1, 2]`,
uncertainties `[1, 1]`, model flux `[2, 2]`, so `ck = 3/4` and the rescaled
flux is `[3/2, 3/2]`. -/
theorem C10_normalize_ck_roundtrip_witness :
    ((∀ x ∈ gC10.unc, x ≠ 0) ∧ ckDen gC10 [2, 2] ≠ 0
      ∧ ckDen gC10 (normalize_model gC10 [2, 2]) ≠ 0)
    ∧ (normalize_model gC10 [2, 2]
        = smulR [2, 2] (ckNum gC10 [2, 2] / ckDen gC10 [2, 2])
      ∧ (normalize_ck gC10 (normalize_model gC10 [2, 2])).2 = 1) :=
  ⟨⟨by with_unfolding_all decide, by with_unfolding_all decide,
    by with_unfolding_all decide⟩,
   C10_normalize_ck_roundtrip gC10 [2, 2] (by with_unfolding_all decide) rfl rfl
     (by with_unfolding_all decide) (by with_unfolding_all decide)⟩

/-- Claim C8: a posterior evaluation whose fit-parameter block has some
dimension strictly outside its `plims` interval returns exactly the
`-np.inf` rejection (whatever path the noise-scale gate takes), while the
bounds check of lines 231-237 itself never rejects a vector whose every
dimension lies inside the CLOSED interval — values exactly equal to min or
max pass. -/
theorem C8_strict_bounds_rejection (g : ModelGrid)
    (smoothFn : List ℚ → List ℚ → List ℚ) (p norms : List ℚ) (lns : ℚ)
    (hp : p.length = g.ndim)
    (hdef : ∀ i < g.ndim, paramDefinedB g p i = true)
    (hnorm : (calcNormalization norms g.wavelength_bins g.wave).isSome) :
    ((∃ i, i < g.ndim ∧ strictlyOutsideB g p i = true) →
      call g smoothFn (p ++ norms ++ [lns]) = some CallResult.negInf)
    ∧ (∀ q : List ℚ, (∀ i < g.ndim, withinLimitsB g q i = true) →
      boundsReject g q = some false) := by
  constructor
  · intro hex
    obtain ⟨nv, hnv⟩ := Option.isSome_iff_exists.mp hnorm
    rw [call_append g smoothFn p norms lns hp]
    have hrej : boundsReject g p = some true := by
      apply boundsRejectLoop_violation
      · intro i hi
        exact hdef i (List.mem_range.mp hi)
      · obtain ⟨i, hi, houti⟩ := hex
        exact ⟨i, List.mem_range.mpr hi, houti⟩
    simp only [hnv, Option.pure_def, Option.bind_eq_bind, Option.some_bind,
      hrej]
    by_cases hl : lns > 1
    · rw [if_pos hl]
    · rw [if_neg hl]
      rfl
  · intro q hq
    apply boundsRejectLoop_within
    intro i hi
    exact hq i (List.mem_range.mp hi)

/-- Witness for C8 on the one-parameter grid with limits `[1, 2]`: the
vector `[3]` is strictly outside and is rejected with `-inf`; the vector
`[2]`, exactly at the upper limit, passes the bounds check. -/
theorem C8_strict_bounds_rejection_witness :
    (paramDefinedB gC8 [3] 0 = true
      ∧ strictlyOutsideB gC8 [3] 0 = true ∧ withinLimitsB gC8 [2] 0 = true)
    ∧ call gC8 (fun _ f => f) ([3] ++ [1] ++ [0]) = some CallResult.negInf
    ∧ boundsReject gC8 [2] = some false :=
  ⟨⟨by with_unfolding_all decide, by with_unfolding_all decide,
    by with_unfolding_all decide⟩,
   (C8_strict_bounds_rejection gC8 (fun _ f => f) [3] [1] 0 rfl
      (by with_unfolding_all decide) (by with_unfolding_all decide)).1
    ⟨0, by with_unfolding_all decide, by with_unfolding_all decide⟩,
   (C8_strict_bounds_rejection gC8 (fun _ f => f) [3] [1] 0 rfl
      (by with_unfolding_all decide) (by with_unfolding_all decide)).2
    [2] (by with_unfolding_all decide)⟩
/-- Claim C9: when every component of the requested vector equals an existing
grid coordinate and the coordinate combination matches exactly one model
(index `m`), interpolated retrieval with smoothing off and no resampling
returns exactly that model's stored flux array with only the least-squares
normalization scaling applied — zero interpolation error. -/
theorem C9_exact_grid_point_flux (g : ModelGrid)
    (smoothFn : List ℚ → List ℚ → List ℚ) (p : List ℚ) (m : Nat)
    (hp : p.length = g.ndim)
    (hsm : g.smooth = false) (hin : g.interp = false)
    (hpin : ∀ i < g.ndim, p.getD i 0 ∈ g.plimsVals.getD i [])
    (hmatch : countMatches g.plimsVals g.ndim p = [m])
    (hm : m < g.modelFlux.length) :
    interp_models g smoothFn p
      = some (normalize_model g (g.modelFlux.getD m [])) := by
  have hget : g.modelFlux.get? m = some (g.modelFlux.getD m []) :=
    get?_some_of_lt g.modelFlux m hm
  have hcs : cornerSpectra g [p] = some (some [(p, g.modelFlux.getD m [])]) := by
    unfold cornerSpectra
    simp only [hmatch, List.headD_cons, hget, List.length_cons,
      List.length_nil]
    rfl
  have htoi : (List.range g.ndim).filter (fun i => i ∉ List.range g.ndim)
      = [] := by
    apply List.filter_eq_nil_iff.mpr
    intro a ha
    simp [ha]
  have hloop := collapseLoop_all_single g p (List.range g.ndim)
    (g.modelFlux.getD m []) (List.range g.ndim) p
    (by rw [hp, List.length_range]) (fun i hi => hi)
  have halookup : alookup [] [(([] : List ℚ), g.modelFlux.getD m [])]
      = some (g.modelFlux.getD m []) := by
    unfold alookup
    rw [if_pos rfl]
  have hcollapse : interpCollapse g p
      = some (some (g.modelFlux.getD m [])) := by
    unfold interpCollapse
    rw [interpEdges_pinned g p hp hpin]
    simp only [Option.pure_def, Option.bind_eq_bind, Option.some_bind,
      interpSingle_pinned g p hpin, htoi, gridCorners_pinned g p hp, hcs,
      hloop, halookup]
  unfold interp_models
  rw [hcollapse]
  simp only [Option.pure_def, Option.bind_eq_bind, Option.some_bind,
    hsm, hin, Bool.false_eq_true, if_false]

/-- Witness for C9 on `gC9`: the vector `(1, 2)` is exactly the coordinate
of model index 1 (flux `[6]`), and interpolated retrieval returns that flux
normalized. -/
theorem C9_exact_grid_point_flux_witness :
    ((countMatches gC9.plimsVals gC9.ndim [1, 2] = [1])
      ∧ gC9.smooth = false ∧ gC9.interp = false)
    ∧ interp_models gC9 (fun _ f => f) [1, 2]
      = some (normalize_model gC9 (gC9.modelFlux.getD 1 [])) :=
  ⟨⟨by with_unfolding_all decide, rfl, rfl⟩,
   C9_exact_grid_point_flux gC9 (fun _ f => f) [1, 2] 1 rfl rfl rfl
     (by with_unfolding_all decide) (by with_unfolding_all decide)
     (by with_unfolding_all decide)⟩

/-- Claim C4: when an interpolation corner lookup matches zero or several
models on an in-bounds request, `interp_models` returns the -99 sentinel
array (line 371), whose sum is negative, and the posterior evaluation
returns exactly the `-np.inf` rejection through the sentinel gate of line
250 — no exception reaches the caller (the conclusion is a returned value,
not the `none` that models a raised exception). -/
theorem C4_ambiguous_corner_rejection (g : ModelGrid)
    (smoothFn : List ℚ → List ℚ → List ℚ) (p norms : List ℚ) (lns : ℚ)
    (hp : p.length = g.ndim)
    (hwave : g.wave ≠ [])
    (hsnap : g.snap = false)
    (hlns : lns ≤ 1)
    (hnm : (g.plimsVals.getD 0 []).length ≤ g.modelFlux.length)
    (hnorm : (calcNormalization norms g.wavelength_bins g.wave).isSome)
    (hbounds : boundsReject g p = some false)
    (hedges : (interpEdges g p).isSome)
    (hfail : ∃ c ∈ (interpCorners g p).getD [],
      (countMatches g.plimsVals g.ndim c).length ≠ 1) :
    interp_models g smoothFn p = some (List.replicate g.wave.length (-99 : ℚ))
    ∧ call g smoothFn (p ++ norms ++ [lns]) = some CallResult.negInf := by
  have hsent := interp_models_sentinel g smoothFn p hnm hedges hfail
  refine ⟨hsent, ?_⟩
  obtain ⟨nv, hnv⟩ := Option.isSome_iff_exists.mp hnorm
  rw [call_append g smoothFn p norms lns hp]
  have hsum : (List.replicate g.wave.length (-99 : ℚ)).sum < 0 := by
    rw [List.sum_replicate, nsmul_eq_mul]
    apply mul_neg_of_pos_of_neg
    · exact_mod_cast List.length_pos.mpr hwave
    · norm_num
  simp only [hnv, Option.some_bind, Option.bind_eq_bind, Option.pure_def,
    hbounds, hsnap, hsent]
  rw [if_neg (not_lt.mpr hlns)]
  simp only [Option.some_bind, Bool.false_eq_true, if_false,
    if_pos hsum]

/-- Witness for C4 on `gC4`: two models share the coordinate `a = 2`, so the
upper corner of the request `a = 3/2` matches two models; retrieval yields
the one-sample sentinel `[-99]` and the evaluation rejects with `-inf`. -/
theorem C4_ambiguous_corner_rejection_witness :
    (gC4.wave ≠ [] ∧ gC4.snap = false ∧ (0 : ℚ) ≤ 1
      ∧ boundsReject gC4 [3/2] = some false
      ∧ (interpEdges gC4 [3/2]).isSome
      ∧ [2] ∈ (interpCorners gC4 [3/2]).getD []
      ∧ (countMatches gC4.plimsVals gC4.ndim [2]).length ≠ 1)
    ∧ interp_models gC4 (fun _ f => f) [3/2]
      = some (List.replicate gC4.wave.length (-99 : ℚ))
    ∧ call gC4 (fun _ f => f) ([3/2] ++ [1] ++ [0]) = some CallResult.negInf :=
  ⟨⟨by with_unfolding_all decide, rfl, by norm_num,
    by with_unfolding_all decide, by with_unfolding_all decide,
    by with_unfolding_all decide, by with_unfolding_all decide⟩,
   (C4_ambiguous_corner_rejection gC4 (fun _ f => f) [3/2] [1] 0 rfl
      (by with_unfolding_all decide) rfl (by norm_num)
      (by with_unfolding_all decide) (by with_unfolding_all decide)
      (by with_unfolding_all decide) (by with_unfolding_all decide)
      ⟨[2], by with_unfolding_all decide, by with_unfolding_all decide⟩).1,
   (C4_ambiguous_corner_rejection gC4 (fun _ f => f) [3/2] [1] 0 rfl
      (by with_unfolding_all decide) rfl (by norm_num)
      (by with_unfolding_all decide) (by with_unfolding_all decide)
      (by with_unfolding_all decide) (by with_unfolding_all decide)
      ⟨[2], by with_unfolding_all decide, by with_unfolding_all decide⟩).2⟩

/-- Claim C7 (amended): for an interpolation step over the parameter named
`teff` with lower grid value `L`, upper grid value `U` and target `t`
strictly between them, the collapse blends the two corner spectra with
exactly the fourth-power weight, which equals `(t⁴ − L⁴) / (U⁴ − L⁴)`
(at `L = 1400, U = 1600, t = 1500` this is `12209/27120 ≈ 0.4502`, not
`0.5`). -/
theorem C7_teff_fourth_power_weight (L U t : ℚ)
    (fL fU wv fx un mw bins : List ℚ) (hLt : L < t) (htU : t < U) :
    interpCollapse
      { wave := wv, flux := fx, unc := un, modelWavelength := mw,
        modelFlux := [fL, fU], params := ["teff"], plimsVals := [[L, U]],
        wavelength_bins := bins, smooth := false, interp := false,
        is_grid_complete := false, snap := false } [t]
      = some (some (addL fL (smulR (subL fU fL) (interpCoeff "teff" L U t))))
    ∧ interpCoeff "teff" L U t = (t ^ 4 - L ^ 4) / (U ^ 4 - L ^ 4) := by
  have hne1 : t ≠ L := ne_of_gt hLt
  have hne2 : t ≠ U := ne_of_lt htU
  have hLU : L ≠ U := ne_of_lt (lt_trans hLt htU)
  set g : ModelGrid :=
    { wave := wv, flux := fx, unc := un, modelWavelength := mw,
      modelFlux := [fL, fU], params := ["teff"], plimsVals := [[L, U]],
      wavelength_bins := bins, smooth := false, interp := false,
      is_grid_complete := false, snap := false } with hg
  have hmem : t ∉ ([L, U] : List ℚ) := by simp [hne1, hne2]
  have hfl : List.filter (fun v => decide (v < t)) [L, U] = [L] := by
    simp [List.filter_cons, List.filter_nil, hLt, not_lt_of_gt htU]
  have hfg : List.filter (fun v => decide (v > t)) [L, U] = [U] := by
    simp [List.filter_cons, List.filter_nil, htU, not_lt_of_gt hLt]
  have hedges1 : gridEdges1 [L, U] t = some [L, U] := by
    unfold gridEdges1
    rw [if_neg hmem, hfl, hfg]
    rfl
  have hE : interpEdges g [t] = some [[L, U]] := by
    unfold interpEdges
    rw [show List.range g.ndim = [0] from rfl, List.mapM_cons]
    rw [show (([t] : List ℚ).get? 0) = some t from rfl]
    simp only [Option.pure_def, Option.bind_eq_bind, Option.some_bind]
    rw [show g.plimsVals.getD 0 [] = [L, U] from rfl, hedges1]
    rfl
  have hsingle : interpSingle g [t] = [] := by
    unfold interpSingle
    rw [show List.range g.ndim = [0] from rfl, List.filter_cons]
    rw [if_neg (by simpa using hmem), List.filter_nil]
  have hcm0 : countMatches g.plimsVals g.ndim [L] = [0] := by
    unfold countMatches
    rw [show List.range ((g.plimsVals.getD 0 []).length) = [0, 1] from rfl,
      List.filter_cons, List.filter_cons, List.filter_nil]
    rw [if_pos (by simp [hg, ModelGrid.ndim, Nat.lt_one_iff]),
      if_neg (by simp [hg, ModelGrid.ndim, Nat.lt_one_iff, Ne.symm hLU])]
  have hcm1 : countMatches g.plimsVals g.ndim [U] = [1] := by
    unfold countMatches
    rw [show List.range ((g.plimsVals.getD 0 []).length) = [0, 1] from rfl,
      List.filter_cons, List.filter_cons, List.filter_nil]
    rw [if_neg (by simp [hg, ModelGrid.ndim, Nat.lt_one_iff, hLU]),
      if_pos (by simp [hg, ModelGrid.ndim, Nat.lt_one_iff])]
  have hcs1 : cornerSpectra g [[U]] = some (some [([U], fU)]) := by
    unfold cornerSpectra
    simp only [hcm1, List.headD_cons, List.length_cons, List.length_nil,
      show g.modelFlux.get? 1 = some fU from rfl, if_true]
    rfl
  have hcs : cornerSpectra g [[L], [U]]
      = some (some [([L], fL), ([U], fU)]) := by
    unfold cornerSpectra
    simp only [hcm0, List.headD_cons, List.length_cons, List.length_nil,
      show g.modelFlux.get? 0 = some fL from rfl, hcs1, if_true]
  have ha1 : alookup [L] [([L], fL), ([U], fU)] = some fL := by
    unfold alookup
    rw [if_pos rfl]
  have ha2 : alookup [U] [([L], fL), ([U], fU)] = some fU := by
    simp only [alookup]
    rw [if_neg (by simp [hLU])]
    simp
  have hstep : collapseStep g [t] [0] [] 0 [[L], [U]] [([L], fL), ([U], fU)]
      = some ([([] : List ℚ)],
        [(([] : List ℚ), addL fL (smulR (subL fU fL)
          (interpCoeff "teff" L U t)))]) := by
    unfold collapseStep
    rw [if_pos (List.mem_singleton.mpr rfl)]
    simp only [show (([[L], [U]] : List (List ℚ)).length / 2) = 1 from by simp,
      List.head?_cons, List.get?_cons_succ, List.get?_cons_zero,
      Option.pure_def, Option.bind_eq_bind, Option.some_bind,
      List.take_succ_cons, List.take_zero, List.map_cons, List.map_nil,
      List.tail_cons, List.mapM_cons, List.mapM_nil, ha1, ha2]
    rfl
  have hloop : collapseLoop g [t] [0] [] [0]
      ([[L], [U]], [([L], fL), ([U], fU)])
      = some ([([] : List ℚ)],
        [(([] : List ℚ), addL fL (smulR (subL fU fL)
          (interpCoeff "teff" L U t)))]) := by
    unfold collapseLoop
    rw [hstep]
    rfl
  have hcoeff : interpCoeff "teff" L U t
      = (t ^ 4 - L ^ 4) / (U ^ 4 - L ^ 4) := by
    unfold interpCoeff
    rw [if_pos rfl]
  refine ⟨?_, hcoeff⟩
  unfold interpCollapse
  rw [hE]
  simp only [Option.pure_def, Option.bind_eq_bind, Option.some_bind, hsingle]
  rw [show gridCorners g.ndim [[L, U]] [] = [[L], [U]] from rfl, hcs]
  simp only [Option.some_bind]
  rw [show (List.range g.ndim).filter (fun i => i ∉ ([] : List Nat)) = [0]
    from rfl, show List.range g.ndim = [0] from rfl, hloop]
  simp only [Option.some_bind]
  rw [show alookup [] [(([] : List ℚ), addL fL (smulR (subL fU fL)
      (interpCoeff "teff" L U t)))]
    = some (addL fL (smulR (subL fU fL) (interpCoeff "teff" L U t)))
    from by unfold alookup; rw [if_pos rfl]]
  rfl

/-- Witness for C7 (amended) at `L = 1400, U = 1600, t = 1500` with corner
spectra `[2]` and `[6]`. -/
theorem C7_teff_fourth_power_weight_witness :
    ((1400 : ℚ) < 1500 ∧ (1500 : ℚ) < 1600)
    ∧ interpCollapse
      { wave := [1], flux := [1], unc := [1], modelWavelength := [1],
        modelFlux := [[2], [6]], params := ["teff"],
        plimsVals := [[1400, 1600]], wavelength_bins := [],
        smooth := false, interp := false, is_grid_complete := false,
        snap := false } [1500]
      = some (some (addL [2] (smulR (subL [6] [2])
          (interpCoeff "teff" 1400 1600 1500))))
    ∧ interpCoeff "teff" 1400 1600 1500
      = ((1500 : ℚ) ^ 4 - 1400 ^ 4) / (1600 ^ 4 - 1400 ^ 4) :=
  ⟨⟨by norm_num, by norm_num⟩,
   (C7_teff_fourth_power_weight 1400 1600 1500 [2] [6] [1] [1] [1] [1] []
      (by norm_num) (by norm_num)).1,
   (C7_teff_fourth_power_weight 1400 1600 1500 [2] [6] [1] [1] [1] [1] []
      (by norm_num) (by norm_num)).2⟩

end SynthFit
